import Mathlib

/-!
# GPUScheduler — shallow embedding and verification

A shallow embedding of the GPUScheduler repository
(`src/gpuscheduler/...`, Python) into Lean 4, together with theorems
settling the frozen claims about it.

Conventions of the embedding:

* Python floats used as wall-clock timestamps and utilization percentages
  are modelled as rationals (`Rat`); none of the verified code depends on
  floating-point rounding.
* Python dicts keyed by strings / ints are modelled as association lists
  with first-match lookup and replace-on-insert update.
* `heapq` heaps are modelled by their abstract semantics: pushing adds an
  entry, and popping after `heapify` yields entries in nondecreasing order
  of the tuple key.  Keys `(priority, createdAt, id)` contain the unique
  job id, so the order is total and the pop order is exactly the sorted
  order of the entries.
* Mutable objects shared between containers (the `Job` objects held both
  in `QueueManager._jobMap` and in `QueueManager._runningByGpu`) are
  modelled by a store: `_jobMap` is the object store (id → Job value) and
  `_runningByGpu` holds job ids; in-place mutation of a job becomes an
  update of the store at its id.
* Methods that raise (`JobStateMachine.transition`) return
  `Except String _`; the job is a value, so on `Except.error` the caller's
  job is unchanged by construction.
-/

namespace GPUScheduler

/-! ## Job model — `src/gpuscheduler/daemon/job.py` -/

/-- `JobStatus` enum from `job.py`: lifecycle state of a job, with string
values used for serialization. -/
inductive JobStatus where
  | queued
  | running
  | paused
  | finished
  | failed
  | cancelled
deriving DecidableEq, Repr

/-- The string value of each `JobStatus` member (`JobStatus.QUEUED.value`
etc. in `job.py`). -/
def JobStatus.value : JobStatus → String
  | .queued => "queued"
  | .running => "running"
  | .paused => "paused"
  | .finished => "finished"
  | .failed => "failed"
  | .cancelled => "cancelled"

/-- Python `JobStatus(s)`: look a string value up in the enum; `none`
models the `ValueError` raised when `s` is not one of the six values. -/
def JobStatus.ofValue (s : String) : Option JobStatus :=
  if s = "queued" then some .queued
  else if s = "running" then some .running
  else if s = "paused" then some .paused
  else if s = "finished" then some .finished
  else if s = "failed" then some .failed
  else if s = "cancelled" then some .cancelled
  else none

/-- Opaque user metadata (`meta: Dict[str, Any]`); modelled as an
association list of string keys and values, which is all the verified
code ever stores there. -/
abbrev Meta := List (String × String)

/-- The `Job` model.

Fields `id` … `meta` are the declared fields of the `Job` class in
`src/gpuscheduler/daemon/job.py` (with their declared defaults).

Modelled from the spec: the fields `requiredGpus`, `exclusive`,
`preemptible` and `assignedGpu` belong to the richer job-model variant
which is absent from `src/`; they are read by
`queueManager.py` (`job.requiredGpus`, `job.exclusive`),
`core.py` (`job.preemptible`, `job.assignedGpu`) and
`stateMachine.py` (`job.assignedGpu`), and the repository's test scripts
construct jobs with them.  Their defaults follow spec §6
(`requiredGpus=1`, `exclusive=true`, `preemptible=true`) and §3
(`assignedGpu` empty when not allocated). -/
structure Job where
  id : String
  command : String := ""
  priority : Int := 10
  status : JobStatus := .queued
  createdAt : Rat
  startedAt : Option Rat := none
  finishedAt : Option Rat := none
  pid : Option Int := none
  meta : Meta := []
  requiredGpus : Nat := 1
  exclusive : Bool := true
  preemptible : Bool := true
  assignedGpu : Option Nat := none
deriving DecidableEq, Repr

/-- The dict produced by `Job.toDict` and consumed by `Job.fromDict`.
Every field is optional because `fromDict` accepts dicts with missing
keys; `toDict` fills all of them. -/
structure JobDict where
  idVal : Option String := none
  commandVal : Option String := none
  priorityVal : Option Int := none
  statusVal : Option String := none
  createdAtVal : Option Rat := none
  startedAtVal : Option Rat := none
  finishedAtVal : Option Rat := none
  pidVal : Option Int := none
  metaVal : Option Meta := none
deriving DecidableEq, Repr

/-- `Job.toDict`: `asdict(self)` over the declared fields of the `Job`
class in `job.py`, with `status` replaced by its string value. -/
def Job.toDict (j : Job) : JobDict where
  idVal := some j.id
  commandVal := some j.command
  priorityVal := some j.priority
  statusVal := some j.status.value
  createdAtVal := some j.createdAt
  startedAtVal := j.startedAt
  finishedAtVal := j.finishedAt
  pidVal := j.pid
  metaVal := some j.meta

/-- `Job.fromDict(d)`.  `freshId` stands for the `str(uuid.uuid4())`
default used when the `id` key is missing, and `nowT` for the
`time.time()` default used when `createdAt` is missing.  A status string
that is not a `JobStatus` value raises `ValueError` inside the
`try`/`except`, which coerces it to `QUEUED`; a missing status key
defaults to `"queued"`. -/
def Job.fromDict (d : JobDict) (freshId : String) (nowT : Rat) : Job where
  id := d.idVal.getD freshId
  command := d.commandVal.getD ""
  priority := d.priorityVal.getD 10
  status := match d.statusVal with
    | none => .queued
    | some s => (JobStatus.ofValue s).getD .queued
  createdAt := d.createdAtVal.getD nowT
  startedAt := d.startedAtVal
  finishedAt := d.finishedAtVal
  pid := d.pidVal
  meta := d.metaVal.getD []

/-! ## Job state machine — `src/gpuscheduler/scheduler/stateMachine.py` -/

/-- `JobStateMachine._allowedTransitions`: the static table of legal
transitions. -/
def allowedTransitions : JobStatus → List JobStatus
  | .queued => [.running, .cancelled]
  | .running => [.paused, .finished, .failed, .cancelled]
  | .paused => [.running, .cancelled]
  | .finished => []
  | .failed => []
  | .cancelled => []

/-- The set of terminal statuses (`{FINISHED, FAILED, CANCELLED}` in
`transition`). -/
def JobStatus.isTerminal : JobStatus → Bool
  | .finished => true
  | .failed => true
  | .cancelled => true
  | _ => false

/-- `JobStateMachine.transition(job, newStatus)` at wall-clock time
`now`.  Raising `ValueError("Illegal transition from ... to ...")` is
modelled by `Except.error` carrying the message; on success the mutated
job is returned. -/
def transition (j : Job) (newStatus : JobStatus) (now : Rat) :
    Except String Job :=
  if newStatus ∈ allowedTransitions j.status then
    let j1 : Job := { j with status := newStatus }
    let j2 : Job :=
      if newStatus = .running then { j1 with startedAt := some now } else j1
    let j3 : Job :=
      if newStatus.isTerminal then
        { j2 with finishedAt := some now, pid := none, assignedGpu := none }
      else j2
    .ok j3
  else
    .error ("Illegal transition from " ++ j.status.value ++ " to "
      ++ newStatus.value)

/-- `JobStateMachine.start`. -/
def smStart (j : Job) (now : Rat) : Except String Job :=
  transition j .running now

/-- `JobStateMachine.pause`. -/
def smPause (j : Job) (now : Rat) : Except String Job :=
  transition j .paused now

/-- `JobStateMachine.finish(job, success)`; `success` defaults to `True`
at every call site that omits it. -/
def smFinish (j : Job) (success : Bool) (now : Rat) : Except String Job :=
  transition j (if success then .finished else .failed) now

/-- `JobStateMachine.cancel`. -/
def smCancel (j : Job) (now : Rat) : Except String Job :=
  transition j .cancelled now

/-! ## Queue manager — `src/gpuscheduler/scheduler/queueManager.py` -/

/-- A heap entry `(job.priority, job.createdAt, job.id)`. -/
abbrev HeapEntry := Int × Rat × String

/-- Python tuple comparison on heap entries: lexicographic on
`(priority, createdAt, id)`. -/
def heapLe (a b : HeapEntry) : Bool :=
  if a.1 ≠ b.1 then a.1 ≤ b.1
  else if a.2.1 ≠ b.2.1 then a.2.1 ≤ b.2.1
  else a.2.2 ≤ b.2.2

/-- Insert into a list sorted by `le` (insertion step of the sorted-list
abstraction of a `heapq` heap). -/
def insertByLe {α : Type} (le : α → α → Bool) (a : α) : List α → List α
  | [] => [a]
  | b :: bs => if le a b then a :: b :: bs else b :: insertByLe le a bs

/-- Sort a list by `le` (the abstract effect of `heapq.heapify` followed by
repeated `heappop`: entries come out in nondecreasing key order). -/
def sortByLe {α : Type} (le : α → α → Bool) (xs : List α) : List α :=
  xs.foldr (insertByLe le) []

/-- First-match lookup in an association list (Python dict `get`). -/
def assocLookup {κ α : Type} [DecidableEq κ] (m : List (κ × α)) (k : κ) :
    Option α :=
  match m with
  | [] => none
  | (k', a) :: rest => if k = k' then some a else assocLookup rest k

/-- Replace-or-add update of an association list (Python dict `[k] = v`). -/
def assocInsert {κ α : Type} [DecidableEq κ] (m : List (κ × α)) (k : κ)
    (v : α) : List (κ × α) :=
  match m with
  | [] => [(k, v)]
  | (k', a) :: rest =>
    if k = k' then (k, v) :: rest else (k', a) :: assocInsert rest k v

/-- Remove a key from an association list (Python dict `pop(k, None)`). -/
def assocErase {κ α : Type} [DecidableEq κ] (m : List (κ × α)) (k : κ) :
    List (κ × α) :=
  match m with
  | [] => []
  | (k', a) :: rest =>
    if k = k' then rest else (k', a) :: assocErase rest k

/-- The `QueueManager` state: `_heap` (multiset of heap entries, see the
heap convention in the header), `_jobMap` (the shared-object store,
id → Job) and `_runningByGpu` (gpu index → ids of the `Job` objects
appended to its running list). -/
structure QMState where
  heap : List HeapEntry
  jobMap : List (String × Job)
  runningByGpu : List (Nat × List String)
deriving DecidableEq, Repr

/-- `QueueManager()`: empty heap, empty maps. -/
def qmEmpty : QMState := ⟨[], [], []⟩

/-- `QueueManager.addJob(job)`: store the job under its id and push
`(priority, createdAt, id)` onto the heap. -/
def addJob (st : QMState) (j : Job) : QMState :=
  { st with
    jobMap := assocInsert st.jobMap j.id j
    heap := st.heap ++ [(j.priority, j.createdAt, j.id)] }

/-- `QueueManager.removeJob(jobId)`: filter the id out of the heap and pop
it from the job map. -/
def removeJob (st : QMState) (jobId : String) : QMState :=
  { st with
    heap := st.heap.filter (fun e => e.2.2 ≠ jobId)
    jobMap := assocErase st.jobMap jobId }

/-- The running list of a device (`self._runningByGpu.get(gpu, [])`). -/
def runningOn (st : QMState) (gpu : Nat) : List String :=
  (assocLookup st.runningByGpu gpu).getD []

/-- `job.exclusive` of a running-list entry, read through the store (the
Python list holds the object itself). -/
def exclusiveOf (st : QMState) (jobId : String) : Bool :=
  match assocLookup st.jobMap jobId with
  | some j => j.exclusive
  | none => false

/-- `QueueManager._getFreeGpus(allGpuIndices)`: a device is free when its
running list is empty or every job on it is non-exclusive.  (The empty
case and the `all` case coincide on `[]`.) -/
def getFreeGpus (st : QMState) (allGpuIndices : List Nat) : List Nat :=
  allGpuIndices.filter (fun gpu =>
    (runningOn st gpu).all (fun i => !exclusiveOf st i))

/-- `setdefault(gpu, []).append(job)` for each allocated device. -/
def appendRunning (st : QMState) (j : Job) (gpus : List Nat) : QMState :=
  { st with
    runningByGpu := gpus.foldl
      (fun m gpu =>
        assocInsert m gpu ((assocLookup m gpu).getD [] ++ [j.id]))
      st.runningByGpu }

/-- The candidate loop of `findAndAssignJob`: pop entries of the heapified
copy in key order; skip ids with no job and jobs that are not `QUEUED`;
the first job with `requiredGpus ≤ len(freeGpus)` is allocated the first
`requiredGpus` free devices, removed from the heap, and returned. -/
def findLoop (st : QMState) (freeGpus : List Nat) :
    List HeapEntry → Option (Job × List Nat) × QMState
  | [] => (none, st)
  | (_, _, jobId) :: rest =>
    match assocLookup st.jobMap jobId with
    | none => findLoop st freeGpus rest
    | some job =>
      if job.status ≠ .queued then findLoop st freeGpus rest
      else if job.requiredGpus ≤ freeGpus.length then
        let allocated := freeGpus.take job.requiredGpus
        let st' := appendRunning st job allocated
        (some (job, allocated),
          { st' with heap := st'.heap.filter (fun e => e.2.2 ≠ job.id) })
      else findLoop st freeGpus rest

/-- `QueueManager.findAndAssignJob(allGpuIndices)`. -/
def findAndAssignJob (st : QMState) (allGpuIndices : List Nat) :
    Option (Job × List Nat) × QMState :=
  if st.heap.isEmpty then (none, st)
  else
    let freeGpus := getFreeGpus st allGpuIndices
    if freeGpus.isEmpty then (none, st)
    else findLoop st freeGpus (sortByLe heapLe st.heap)

/-- `QueueManager.releaseJob(job)`: remove the job (first occurrence; the
Python `in`/`remove` pair compares against the same object) from every
device's running list and drop devices whose list is empty afterwards. -/
def releaseJob (st : QMState) (j : Job) : QMState :=
  { st with
    runningByGpu :=
      (st.runningByGpu.map (fun p => (p.1, p.2.erase j.id))).filter
        (fun p => !p.2.isEmpty) }

/-- `QueueManager.requeueJob(job)`: the in-place mutations
`job.status = QUEUED` and `job.createdAt = time.time()` (modelled as a
store update at `job.id`, per the shared-object convention), then a push
of `(job.priority, job.createdAt, job.id)` with the refreshed
`createdAt`. -/
def requeueJob (st : QMState) (j : Job) (now : Rat) : QMState :=
  let j' : Job := { j with status := .queued, createdAt := now }
  { st with
    jobMap := assocInsert st.jobMap j.id j'
    heap := st.heap ++ [(j'.priority, j'.createdAt, j'.id)] }

/-- `QueueManager.getQueuedJobs()`: jobs of heap entries whose store entry
exists and is `QUEUED`. -/
def getQueuedJobs (st : QMState) : List Job :=
  st.heap.filterMap (fun e =>
    match assocLookup st.jobMap e.2.2 with
    | some j => if j.status = .queued then some j else none
    | none => none)

/-- `QueueManager.getRunningJobsOnGpu(gpuIndex)` (a copy of the running
list; ids resolve through the store). -/
def getRunningJobsOnGpu (st : QMState) (gpuIndex : Nat) : List String :=
  runningOn st gpuIndex

/-! ## Policy engine — `src/gpuscheduler/scheduler/policy.py` -/

/-- `SchedulerPolicy.__init__` configuration, with the constructor
defaults. -/
structure PolicyConfig where
  staticUtilThreshold : Rat := 60
  staticMemThreshold : Rat := 80
  historyWindow : Nat := 5
  spikeDelta : Rat := 25
  cooldownSeconds : Rat := 5
deriving DecidableEq, Repr

/-- Mutable policy state: `_utilHistory` and `_cooldownUntil`, both dicts
keyed by gpu index. -/
structure PolicyState where
  utilHistory : List (Nat × List Rat)
  cooldownUntil : List (Nat × Rat)
deriving DecidableEq, Repr

/-- Fresh policy state (both dicts empty). -/
def policyEmpty : PolicyState := ⟨[], []⟩

/-- `SchedulerPolicy.updateMetrics(gpuIndex, utilPercent)`: append the
sample and pop the oldest one when the history exceeds the window. -/
def updateMetrics (cfg : PolicyConfig) (st : PolicyState) (gpuIndex : Nat)
    (utilPercent : Rat) : PolicyState :=
  let hist := (assocLookup st.utilHistory gpuIndex).getD [] ++ [utilPercent]
  let hist' := if cfg.historyWindow < hist.length then hist.tail else hist
  { st with utilHistory := assocInsert st.utilHistory gpuIndex hist' }

/-- `SchedulerPolicy._movingAverage(gpuIndex)`: `None` on a missing or
empty history (Python's falsy check `if not hist`), else the mean. -/
def movingAverage (st : PolicyState) (gpuIndex : Nat) : Option Rat :=
  let hist := (assocLookup st.utilHistory gpuIndex).getD []
  if hist = [] then none else some (hist.sum / hist.length)

/-- `SchedulerPolicy._detectSpike(gpuIndex)`: false on fewer than two
samples, else `|hist[-1] - hist[-2]| > spikeDelta`.  The negative indices
`hist[-1]` and `hist[-2]` are modelled as the first two elements of the
reversed list; the `getD 0` defaults are unreachable under the length
guard. -/
def detectSpike (cfg : PolicyConfig) (st : PolicyState) (gpuIndex : Nat) :
    Bool :=
  let hist := (assocLookup st.utilHistory gpuIndex).getD []
  if hist.length < 2 then false
  else cfg.spikeDelta <
    |hist.getLast?.getD 0 - hist.dropLast.getLast?.getD 0|

/-- `SchedulerPolicy._isCoolingDown(gpuIndex)`: Python's `if not until`
treats both a missing entry and the float `0.0` as "no cooldown" (so the
missing case is folded into the zero default); else `time.time() <
until`. -/
def isCoolingDown (st : PolicyState) (gpuIndex : Nat) (now : Rat) : Bool :=
  let until_ := (assocLookup st.cooldownUntil gpuIndex).getD 0
  if until_ = 0 then false else now < until_

/-- `SchedulerPolicy._triggerCooldown(gpuIndex)`. -/
def triggerCooldown (cfg : PolicyConfig) (st : PolicyState)
    (gpuIndex : Nat) (now : Rat) : PolicyState :=
  { st with
    cooldownUntil :=
      assocInsert st.cooldownUntil gpuIndex (now + cfg.cooldownSeconds) }

/-- `SchedulerPolicy.canScheduleOnGpu(gpuIndex, currentUtil,
currentMemUtil)`: update metrics, then the cooldown check, the spike
check (triggering a cooldown), the adaptive moving-average rule and the
static fallback, in that order. -/
def canScheduleOnGpu (cfg : PolicyConfig) (st : PolicyState)
    (gpuIndex : Nat) (now currentUtil : Rat)
    (currentMemUtil : Option Rat) : Bool × PolicyState :=
  let st1 := updateMetrics cfg st gpuIndex currentUtil
  if isCoolingDown st1 gpuIndex now then (false, st1)
  else if detectSpike cfg st1 gpuIndex then
    (false, triggerCooldown cfg st1 gpuIndex now)
  else
    let memOk : Bool :=
      currentMemUtil.elim true (fun m => m < cfg.staticMemThreshold)
    let avgOk : Bool :=
      (movingAverage st1 gpuIndex).elim false
        (fun avg => avg < cfg.staticUtilThreshold)
    if avgOk && memOk then (true, st1)
    else if currentUtil < cfg.staticUtilThreshold && memOk then (true, st1)
    else (false, st1)

/-- The six-step admission rule exactly as the spec words it (§4.6), for
comparison with the source's `canScheduleOnGpu`:
1. append `util` to `utilHistory[g]`, trimming to window;
2. if `now < cooldownUntil[g]`, deny;
3. if the last two samples differ by more than `spikeDelta`, set
   `cooldownUntil[g] = now + cooldownSeconds` and deny;
4. if `mean(history) < staticUtilThreshold` and `memUtil` is absent or
   `< staticMemThreshold`, allow;
5. if `util < staticUtilThreshold` and `memUtil` is absent or
   `< staticMemThreshold`, allow;
6. deny. -/
def canScheduleOnGpuSpec (cfg : PolicyConfig) (st : PolicyState)
    (gpuIndex : Nat) (now currentUtil : Rat)
    (currentMemUtil : Option Rat) : Bool × PolicyState :=
  let hist0 := (assocLookup st.utilHistory gpuIndex).getD [] ++ [currentUtil]
  let hist := if cfg.historyWindow < hist0.length then hist0.tail else hist0
  let st1 : PolicyState :=
    { st with utilHistory := assocInsert st.utilHistory gpuIndex hist }
  if now < (assocLookup st1.cooldownUntil gpuIndex).getD 0 then (false, st1)
  else if 2 ≤ hist.length ∧ cfg.spikeDelta <
      |hist.getLast?.getD 0 - hist.dropLast.getLast?.getD 0| then
    (false, { st1 with
      cooldownUntil :=
        assocInsert st1.cooldownUntil gpuIndex (now + cfg.cooldownSeconds) })
  else
    let memOk : Bool :=
      currentMemUtil.elim true (fun m => m < cfg.staticMemThreshold)
    if hist.sum / hist.length < cfg.staticUtilThreshold ∧ memOk then
      (true, st1)
    else if currentUtil < cfg.staticUtilThreshold ∧ memOk then (true, st1)
    else (false, st1)

/-- `SchedulerPolicy.shouldPreempt(gpuIndex, currentUtil, jobPriority,
incomingPriority)`. -/
def shouldPreempt (currentUtil : Rat) (jobPriority incomingPriority : Int) :
    Bool :=
  if jobPriority ≤ incomingPriority then false
  else if 90 < currentUtil then false
  else true

/-! ## Completions phase — `SchedulerCore._handleCompletions`
(`src/gpuscheduler/scheduler/core.py`, lines 106–126) -/

/-- One running job's completion check inside
`SchedulerCore._handleCompletions`: jobs without a pid are skipped; a
non-blocking poll (abstracted as the function `poll : pid → exit code?`,
the instantaneous content of `runner._processTable`) that returns an exit
code triggers `JobStateMachine.finish(job)` — called without a `success`
argument, so with its default `True`, whatever the exit code was.  The
returned `Bool` records whether the job completed (and hence is released
from its GPUs by the following `releaseJob` call). -/
def handleCompletionStep (poll : Int → Option Int) (now : Rat) (j : Job) :
    Except String (Job × Bool) :=
  match j.pid with
  | none => .ok (j, false)
  | some p =>
    match poll p with
    | none => .ok (j, false)
    | some _exitCode => (smFinish j true now).map (fun j' => (j', true))

/-! ## Monitor notification gate — `src/gpuscheduler/daemon/monitor.py`

Modelled from the spec: spec §9 records that two monitor variants exist
in the repository and prescribes the one that "throttles callbacks by
delta"; the `Monitor` present in `src/` is the other variant (its
`__init__` takes no `utilDeltaThreshold` and its `_loop` invokes the
callback on every snapshot), while `SchedulerCore.__init__`
(`core.py`, lines 36–40) calls
`Monitor(pollInterval=2.0, callback=..., utilDeltaThreshold=10.0)`,
a call only the missing throttled variant accepts.  The definitions
below model that missing variant from spec §4.2. -/

/-- A telemetry snapshot, per spec §4.1: tagged by backend. -/
inductive Snapshot where
  | nvidia (gpus : List (Nat × Rat))
  | powermetrics (gpuUtilPercent : Option Rat)
  | noBackend
deriving DecidableEq, Repr

/-- Modelled from the spec: *derived GPU utilization* — "the maximum of
per-device `gpuUtilPercent` for NVIDIA, the single value for
powermetrics, 0 otherwise" (§4.2, glossary). -/
def derivedUtil : Snapshot → Rat
  | .nvidia gpus => (gpus.map Prod.snd).foldl max 0
  | .powermetrics u => u.getD 0
  | .noBackend => 0

/-- Modelled from the spec: the default `utilDeltaThreshold` (10
percentage points, §4.2), the value `SchedulerCore.__init__` passes. -/
def utilDeltaThresholdDefault : Rat := 10

/-- Modelled from the spec: one iteration of the throttled monitor's
notification gate.  `lastTrigger` is the derived utilization at the last
snapshot that triggered a notification (`none` before any notification);
the snapshot's derived utilization `u` triggers the callback exactly when
there is a previous trigger value and `u` has moved from it by at least
`thr`, or when no notification has happened yet.  The first component
says whether the callback is invoked, the second is the new
`lastTrigger`. -/
def monitorGate (thr : Rat) (lastTrigger : Option Rat) (u : Rat) :
    Bool × Option Rat :=
  match lastTrigger with
  | none => (true, some u)
  | some l => if thr ≤ |u - l| then (true, some u) else (false, some l)

/-- Modelled from the spec: the monitor loop over a finite trace of
snapshots, returning for each snapshot whether the callback was invoked
on it, threaded through the `lastTrigger` state. -/
def monitorRun (thr : Rat) (lastTrigger : Option Rat) :
    List Snapshot → List Bool
  | [] => []
  | s :: rest =>
    let (fired, last') := monitorGate thr lastTrigger (derivedUtil s)
    fired :: monitorRun thr last' rest

/-! ## Transition trajectories

Applying a sequence of requested transitions, each at a wall-clock time,
to a job: a successful transition replaces the job, an illegal one raises
and (the exception being caught or propagated past the mutation point)
leaves the job as it was. -/

/-- Apply a list of `(target status, time)` transition requests in order. -/
def applyTransitions (j : Job) : List (JobStatus × Rat) → Job
  | [] => j
  | (s, t) :: rest =>
    applyTransitions
      (match transition j s t with
        | .ok j' => j'
        | .error _ => j) rest

/-! ## Concrete inputs used by witnesses and counterexamples -/

/-- A job as produced by the submit interface: queued, no timestamps but
`createdAt`, no pid. -/
def jobFresh : Job :=
  { id := "w0", command := "sleep 1", createdAt := 0 }

/-- A running job with a pid, as seen by the completions phase. -/
def jobRun : Job :=
  { id := "r", command := "sleep 1", status := .running, createdAt := 0,
    startedAt := some 1, pid := some 7, assignedGpu := some 0 }

/-- A paused job held in the queue manager's store (the preemption path of
`core.py` pauses a job and then requeues it). -/
def jobPaused : Job :=
  { id := "p", command := "train", status := .paused, createdAt := 0,
    startedAt := some 1 }

/-- A queue-manager state whose store holds only `jobPaused`. -/
def qmPaused : QMState := ⟨[], [("p", jobPaused)], []⟩

/-- A non-exclusive queued job. -/
def jobA : Job :=
  { id := "a", command := "train a", priority := 5, createdAt := 0,
    exclusive := false }

/-- An exclusive queued job submitted after `jobA`. -/
def jobB : Job :=
  { id := "b", command := "train b", priority := 5, createdAt := 1,
    exclusive := true }

/-- State after `addJob jobA`. -/
def c2add : QMState := addJob qmEmpty jobA

/-- State after `jobA` was assigned device 0. -/
def c2afterA : QMState := (findAndAssignJob c2add [0]).2

/-- State after `addJob jobB` on top of that. -/
def c2addB : QMState := addJob c2afterA jobB

/-- A nominally better-priority job that arrived late: priority 5,
created at time 990. -/
def jobX : Job :=
  { id := "x", command := "train x", priority := 5, createdAt := 990 }

/-- A job that has waited since time 0 with nominal priority 10.  With the
aging factor 0.05 used by the repository's own queue-manager test, at
time 1000 its effective priority 10 − 1000·0.05 = −40 is far better than
`jobX`'s 5 − 10·0.05 = 4.5. -/
def jobY : Job :=
  { id := "y", command := "train y", priority := 10, createdAt := 0 }

/-- Queue with `jobY` (added first) and `jobX`. -/
def c3queue : QMState := addJob (addJob qmEmpty jobY) jobX

/-- The legal-transition table exactly as the claimed specification lists
it: Queued→{Running, Cancelled}, Running→{Paused, Finished, Failed,
Cancelled}, Paused→{Running, Cancelled}, nothing out of the terminal
statuses. -/
abbrev legalPairClaim (cur ns : JobStatus) : Prop :=
  (cur = .queued ∧ (ns = .running ∨ ns = .cancelled)) ∨
  (cur = .running ∧
    (ns = .paused ∨ ns = .finished ∨ ns = .failed ∨ ns = .cancelled)) ∨
  (cur = .paused ∧ (ns = .running ∨ ns = .cancelled))

/-- The dict `{"status": "definitely-not-a-status"}` with every other key
absent. -/
def dictBogusStatus : JobDict := { statusVal := some "definitely-not-a-status" }

/-- The empty dict (every key absent). -/
def dictEmpty : JobDict := {}

/-! ## Theorems -/

/-- Lookup after replace-or-add insert. -/
theorem assocLookup_assocInsert {κ α : Type} [DecidableEq κ]
    (m : List (κ × α)) (k i : κ) (v : α) :
    assocLookup (assocInsert m k v) i =
      if i = k then some v else assocLookup m i := by
  induction m with
  | nil => simp [assocInsert, assocLookup]
  | cons hd tl ih =>
    obtain ⟨k', a⟩ := hd
    by_cases hk : k = k'
    · subst hk
      by_cases hi : i = k <;> simp [assocInsert, assocLookup, hi]
    · by_cases hi : i = k'
      · subst hi
        simp [assocInsert, assocLookup, hk, Ne.symm hk]
      · simp [assocInsert, assocLookup, hk, hi, ih]

/-- C5: deserialization inverts serialization, field for field over the
declared `Job` fields: `fromDict (toDict job)` restores `id`, `command`,
`priority`, `status`, `createdAt`, `startedAt`, `finishedAt`, `pid` and
`meta` exactly, for every job value and independently of the fresh-id and
current-time defaults (which are not consulted because `toDict` fills
every key).  `toJson`/`fromJson` are `json.dumps`/`json.loads` around
these dicts. -/
theorem c5_json_roundtrip (j : Job) (freshId : String) (nowT : Rat) :
    (Job.fromDict j.toDict freshId nowT).id = j.id ∧
    (Job.fromDict j.toDict freshId nowT).command = j.command ∧
    (Job.fromDict j.toDict freshId nowT).priority = j.priority ∧
    (Job.fromDict j.toDict freshId nowT).status = j.status ∧
    (Job.fromDict j.toDict freshId nowT).createdAt = j.createdAt ∧
    (Job.fromDict j.toDict freshId nowT).startedAt = j.startedAt ∧
    (Job.fromDict j.toDict freshId nowT).finishedAt = j.finishedAt ∧
    (Job.fromDict j.toDict freshId nowT).pid = j.pid ∧
    (Job.fromDict j.toDict freshId nowT).meta = j.meta := by
  obtain ⟨i, c, p, s, ca, sa, fa, pd, m, rg, ex, pr, ag⟩ := j
  refine ⟨rfl, rfl, rfl, ?_, rfl, rfl, rfl, rfl, rfl⟩
  cases s <;>
    simp [Job.fromDict, Job.toDict, JobStatus.value, JobStatus.ofValue]

/-- C10: `Job.fromDict` never raises on an unrecognized or missing status
value — a status string that is not one of the six `JobStatus` values is
coerced to `Queued`, a missing status key defaults to `Queued` — and each
omitted optional field (`startedAt`, `finishedAt`, `pid`, `meta`) yields
its declared default. -/
theorem c10_fromdict_lenient (d : JobDict) (freshId : String) (nowT : Rat) :
    (∀ s, d.statusVal = some s → JobStatus.ofValue s = none →
      (Job.fromDict d freshId nowT).status = .queued) ∧
    (d.statusVal = none → (Job.fromDict d freshId nowT).status = .queued) ∧
    (d.startedAtVal = none →
      (Job.fromDict d freshId nowT).startedAt = none) ∧
    (d.finishedAtVal = none →
      (Job.fromDict d freshId nowT).finishedAt = none) ∧
    (d.pidVal = none → (Job.fromDict d freshId nowT).pid = none) ∧
    (d.metaVal = none → (Job.fromDict d freshId nowT).meta = []) := by
  refine ⟨?_, ?_, ?_, ?_, ?_, ?_⟩
  · intro s hs hnone
    simp [Job.fromDict, hs, hnone]
  all_goals intro h; simp [Job.fromDict, h]

/-- Witness for C10: on the dict `{"status": "definitely-not-a-status"}`
the status is coerced to `Queued` and the omitted optional fields get
their defaults; on the empty dict the missing status also defaults to
`Queued`. -/
theorem c10_fromdict_lenient_witness :
    (Job.fromDict dictBogusStatus "fresh" 0).status = .queued ∧
    (Job.fromDict dictBogusStatus "fresh" 0).startedAt = none ∧
    (Job.fromDict dictBogusStatus "fresh" 0).finishedAt = none ∧
    (Job.fromDict dictBogusStatus "fresh" 0).pid = none ∧
    (Job.fromDict dictBogusStatus "fresh" 0).meta = [] ∧
    (Job.fromDict dictEmpty "fresh" 0).status = .queued := by
  have h := c10_fromdict_lenient dictBogusStatus "fresh" 0
  have h' := c10_fromdict_lenient dictEmpty "fresh" 0
  exact ⟨h.1 "definitely-not-a-status" rfl (by decide), h.2.2.1 rfl,
    h.2.2.2.1 rfl, h.2.2.2.2.1 rfl, h.2.2.2.2.2 rfl, h'.2.1 rfl⟩

/-- C6: `JobStateMachine.transition` succeeds exactly on the pairs of the
legal table (Queued→{Running, Cancelled}, Running→{Paused, Finished,
Failed, Cancelled}, Paused→{Running, Cancelled}, nothing out of a
terminal status) and on every other pair raises the illegal-transition
error, producing no mutated job. -/
theorem c6_transition_table (j : Job) (ns : JobStatus) (now : Rat) :
    ((∃ j', transition j ns now = .ok j') ↔ legalPairClaim j.status ns) ∧
    (¬ legalPairClaim j.status ns →
      transition j ns now =
        .error ("Illegal transition from " ++ j.status.value ++ " to "
          ++ ns.value)) := by
  obtain ⟨i, c, p, s, ca, sa, fa, pd, m, rg, ex, pr, ag⟩ := j
  cases s <;> cases ns <;>
    simp [transition, allowedTransitions, legalPairClaim, JobStatus.value,
      JobStatus.isTerminal]

/-- Witness for C6: from `Queued`, a transition to `Paused` is rejected
with the illegal-transition error, while a transition to `Running`
succeeds. -/
theorem c6_transition_table_witness :
    transition jobFresh .paused 3 =
      .error "Illegal transition from queued to paused" ∧
    (∃ j', transition jobFresh .running 3 = .ok j') := by
  refine ⟨(c6_transition_table jobFresh .paused 3).2 (by decide), ?_⟩
  exact ((c6_transition_table jobFresh .running 3).1).mpr
    (Or.inl ⟨rfl, Or.inl rfl⟩)

/-- Lookup of a key absent from an association list. -/
theorem assocLookup_eq_none_of_not_mem {κ α : Type} [DecidableEq κ]
    (m : List (κ × α)) (k : κ) (h : k ∉ m.map Prod.fst) :
    assocLookup m k = none := by
  induction m with
  | nil => rfl
  | cons hd tl ih =>
    obtain ⟨k', a⟩ := hd
    simp only [List.map_cons, List.mem_cons] at h
    push_neg at h
    simp [assocLookup, h.1, ih h.2]

/-- Lookup after erasing a key, on a duplicate-free association list (the
abstraction invariant of a Python dict). -/
theorem assocLookup_assocErase {κ α : Type} [DecidableEq κ]
    (m : List (κ × α)) (k i : κ) (hnd : (m.map Prod.fst).Nodup) :
    assocLookup (assocErase m k) i =
      if i = k then none else assocLookup m i := by
  induction m with
  | nil => simp [assocErase, assocLookup]
  | cons hd tl ih =>
    obtain ⟨k', a⟩ := hd
    simp only [List.map_cons, List.nodup_cons] at hnd
    by_cases hk : k = k'
    · subst hk
      by_cases hi : i = k
      · subst hi
        simp [assocErase, assocLookup_eq_none_of_not_mem tl i hnd.1]
      · simp [assocErase, assocLookup, hi, Ne.symm hi]
    · by_cases hi : i = k'
      · subst hi
        simp [assocErase, assocLookup, hk, Ne.symm hk]
      · simp [assocErase, assocLookup, hk, hi, ih hnd.2]

/-- `findLoop` never touches the job map (only the heap and the running
lists). -/
theorem findLoop_jobMap (st : QMState) (free : List Nat)
    (l : List HeapEntry) : ((findLoop st free l).2).jobMap = st.jobMap := by
  induction l with
  | nil => rfl
  | cons e rest ih =>
    obtain ⟨pr, ca, jid⟩ := e
    rw [findLoop]
    split
    · exact ih
    · split
      · exact ih
      · split
        · rfl
        · exact ih

/-- C1 (divergence witness): in the completions phase a running job whose
poll reports the nonzero exit code 1 is transitioned to **Finished**, not
Failed — `JobStateMachine.finish(job)` is called without a `success`
argument, so the exit code is ignored. -/
theorem c1_nonzero_exit_marked_finished :
    handleCompletionStep (fun p => if p = 7 then some 1 else none) 5 jobRun
      = .ok ({ jobRun with
          status := .finished
          finishedAt := some 5
          pid := none
          assignedGpu := none }, true) ∧
    JobStatus.finished ≠ JobStatus.failed :=
  ⟨by rfl, by decide⟩

/-- C2 (divergence witness): starting from an empty queue manager, the
non-exclusive `jobA` is assigned device 0; with `jobA` still running
there, `findAndAssignJob` then assigns the **exclusive** `jobB` to the
same, non-empty device, so device 0's running set mixes a non-exclusive
and an exclusive job — `_getFreeGpus` never consults the exclusivity of
the incoming job. -/
theorem c2_exclusive_job_shares_device :
    (findAndAssignJob c2add [0]).1 = some (jobA, [0]) ∧
    runningOn c2afterA 0 = ["a"] ∧
    jobA.exclusive = false ∧
    jobB.exclusive = true ∧
    (findAndAssignJob c2addB [0]).1 = some (jobB, [0]) ∧
    runningOn (findAndAssignJob c2addB [0]).2 0 = ["a", "b"] := by decide

/-- C3 (divergence witness): with `jobY` (priority 10, createdAt 0) and
`jobX` (priority 5, createdAt 990) both queued, `findAndAssignJob` picks
`jobX`: candidates are ordered by the raw key `(priority, createdAt,
id)`.  No aging factor exists anywhere in `queueManager.py`, so the
effective priorities at time 1000 under the repository test's
`agingFactor = 0.05` (`jobY`: 10 − 1000·0.05 = −40, `jobX`: 5 − 10·0.05
= 4.5) play no role, and the long-waiting `jobY` does not outrank
`jobX`. -/
theorem c3_no_aging_in_allocation :
    (findAndAssignJob c3queue [0]).1 = some (jobX, [0]) := by decide

/-- C9 counterexample: `QueueManager.requeueJob` — a Queue Manager
operation — itself changes the stored job's status field: requeueing the
Paused `jobPaused` leaves it Queued in the store, with no State Machine
involved (Paused→Queued is not even in the legal-transition table). -/
theorem c9_requeue_mutates_status :
    jobPaused.status = .paused ∧
    (assocLookup (requeueJob qmPaused jobPaused 5).jobMap "p").map
      Job.status = some .queued := by decide

/-- C9 (amended): every Queue Manager operation except `requeueJob`
leaves every stored job's status unchanged — `addJob` stores its argument
verbatim and touches no other entry, `removeJob` only deletes its entry,
`findAndAssignJob` and `releaseJob` never modify the job map at all —
while `requeueJob` stores the requeued job with status set to `Queued`
and `createdAt` refreshed, leaving other entries unchanged. -/
theorem c9_status_frame :
    (∀ (st : QMState) (j : Job) (i : String),
      assocLookup (addJob st j).jobMap i =
        if i = j.id then some j else assocLookup st.jobMap i) ∧
    (∀ (st : QMState) (jobId i : String),
      (st.jobMap.map Prod.fst).Nodup →
      assocLookup (removeJob st jobId).jobMap i =
        if i = jobId then none else assocLookup st.jobMap i) ∧
    (∀ (st : QMState) (gpus : List Nat),
      ((findAndAssignJob st gpus).2).jobMap = st.jobMap) ∧
    (∀ (st : QMState) (j : Job),
      (releaseJob st j).jobMap = st.jobMap) ∧
    (∀ (st : QMState) (j : Job) (now : Rat) (i : String), i ≠ j.id →
      assocLookup (requeueJob st j now).jobMap i =
        assocLookup st.jobMap i) ∧
    (∀ (st : QMState) (j : Job) (now : Rat),
      assocLookup (requeueJob st j now).jobMap j.id =
        some { j with status := .queued, createdAt := now }) := by
  refine ⟨?_, ?_, ?_, ?_, ?_, ?_⟩
  · intro st j i
    exact assocLookup_assocInsert st.jobMap j.id i j
  · intro st jobId i hnd
    exact assocLookup_assocErase st.jobMap jobId i hnd
  · intro st gpus
    simp only [findAndAssignJob]
    split
    · rfl
    · split
      · rfl
      · exact findLoop_jobMap st _ _
  · intro st j
    rfl
  · intro st j now i hi
    simp [requeueJob, assocLookup_assocInsert, hi]
  · intro st j now
    simp [requeueJob, assocLookup_assocInsert]

/-- Witness for C9 (amended): the frame properties applied at concrete
states — removing `"p"` empties its entry, requeueing `jobPaused` leaves
the unrelated key `"q"` alone, and an allocation attempt leaves the job
map of `qmPaused` unchanged. -/
theorem c9_status_frame_witness :
    assocLookup (removeJob qmPaused "p").jobMap "p" = none ∧
    assocLookup (requeueJob qmPaused jobPaused 5).jobMap "q" =
      assocLookup qmPaused.jobMap "q" ∧
    ((findAndAssignJob qmPaused [0]).2).jobMap = qmPaused.jobMap := by
  have h := c9_status_frame
  refine ⟨?_, h.2.2.2.2.1 qmPaused jobPaused 5 "q" (by decide),
    h.2.2.1 qmPaused [0]⟩
  have h2 := h.2.1 qmPaused "p" "p" (by decide)
  simpa using h2

/-- C4: the notification gate of the delta-throttled monitor (modelled
from the spec, see `monitorGate`): with `l` the last derived utilization
that triggered a notification, a snapshot with derived utilization `u`
invokes the callback exactly when `u` has moved from `l` by at least the
threshold; within the threshold no callback is invoked and the reference
value `l` is kept; and the monitor loop threads this gate over every
snapshot of a trace. -/
theorem c4_monitor_gate_threshold (thr l u : Rat) :
    ((monitorGate thr (some l) u).1 = true ↔ thr ≤ |u - l|) ∧
    (thr ≤ |u - l| → monitorGate thr (some l) u = (true, some u)) ∧
    (¬ thr ≤ |u - l| → monitorGate thr (some l) u = (false, some l)) ∧
    (∀ (last : Option Rat) (s : Snapshot) (rest : List Snapshot),
      monitorRun thr last (s :: rest) =
        (monitorGate thr last (derivedUtil s)).1 ::
          monitorRun thr (monitorGate thr last (derivedUtil s)).2 rest) := by
  refine ⟨?_, fun h => ?_, fun h => ?_, fun last s rest => rfl⟩
  · by_cases h : thr ≤ |u - l| <;> simp [monitorGate, h]
  · simp [monitorGate, h]
  · simp [monitorGate, h]

/-- Witness for C4: with the default threshold 10 and last notified value
50, a snapshot at 55 produces no callback and keeps the reference at 50,
while a snapshot at 61 fires the callback and moves the reference. -/
theorem c4_monitor_gate_threshold_witness :
    monitorGate 10 (some 50) 55 = (false, some 50) ∧
    monitorGate 10 (some 50) 61 = (true, some 61) := by
  exact ⟨(c4_monitor_gate_threshold 10 50 55).2.2.1 (by norm_num),
    (c4_monitor_gate_threshold 10 50 61).2.1 (by norm_num)⟩

/-- Field bookkeeping of a successful `transition`: the status becomes
the target; `startedAt` is stamped exactly on entry to Running and kept
otherwise; `finishedAt`, `pid` and `assignedGpu` are stamped/cleared
exactly on entry to a terminal status and (`finishedAt`, `pid`) kept
otherwise. -/
theorem transition_ok_fields {j : Job} {ns : JobStatus} {now : Rat}
    {j' : Job} (h : transition j ns now = .ok j') :
    j'.status = ns ∧
    (ns = .running → j'.startedAt = some now) ∧
    (ns ≠ .running → j'.startedAt = j.startedAt) ∧
    (ns.isTerminal = true →
      j'.finishedAt = some now ∧ j'.pid = none ∧ j'.assignedGpu = none) ∧
    (ns.isTerminal = false → j'.finishedAt = j.finishedAt ∧ j'.pid = j.pid)
    := by
  rw [transition] at h
  split at h
  · simp only [Except.ok.injEq] at h
    subst h
    cases ns <;> simp [JobStatus.isTerminal]
  · exact absurd h (by simp)

/-- Terminal-state invariant along any trajectory of transition requests
whose wall-clock times are nondecreasing: if the job ends terminal, its
pid is cleared and its `finishedAt` is no earlier than its `startedAt`.
(`hb` bounds any pre-existing `startedAt` by the upcoming times; `hinv`
is the invariant for the initial job.) -/
theorem applyTransitions_terminal_inv (l : List (JobStatus × Rat)) :
    ∀ (j : Job),
    List.Pairwise (fun a b => a.2 ≤ b.2) l →
    (∀ s, j.startedAt = some s → ∀ p ∈ l, s ≤ p.2) →
    (j.status.isTerminal = true →
      j.pid = none ∧
      ∀ s, j.startedAt = some s → ∃ f, j.finishedAt = some f ∧ s ≤ f) →
    ((applyTransitions j l).status.isTerminal = true →
      (applyTransitions j l).pid = none ∧
      ∀ s, (applyTransitions j l).startedAt = some s →
        ∃ f, (applyTransitions j l).finishedAt = some f ∧ s ≤ f) := by
  induction l with
  | nil => exact fun j _ _ hinv => hinv
  | cons p rest ih =>
    obtain ⟨target, t⟩ := p
    intro j hsort hb hinv
    rw [applyTransitions]
    rw [List.pairwise_cons] at hsort
    cases htr : transition j target t with
    | error e =>
      refine ih j hsort.2 (fun s hs q hq => hb s hs q (List.mem_cons_of_mem _ hq)) hinv
    | ok j' =>
      have hf := transition_ok_fields htr
      refine ih j' hsort.2 ?_ ?_
      · intro s hs q hq
        by_cases hrun : target = JobStatus.running
        · subst hrun
          rw [hf.2.1 rfl] at hs
          cases hs
          exact hsort.1 q hq
        · rw [hf.2.2.1 hrun] at hs
          exact le_trans (hb s hs (target, t) (List.mem_cons_self _ _))
            (hsort.1 q hq)
      · intro hterm
        have hts : target.isTerminal = true := by
          rw [← hf.1]; exact hterm
        obtain ⟨hfin, hpid, _⟩ := hf.2.2.2.1 hts
        refine ⟨hpid, fun s hs => ⟨t, hfin, ?_⟩⟩
        have hnr : target ≠ JobStatus.running := by
          intro hr
          subst hr
          exact absurd hts (by decide)
        rw [hf.2.2.1 hnr] at hs
        exact hb s hs (target, t) (List.mem_cons_self _ _)

/-- C7: every successful transition into Running stamps `startedAt` with
the transition time; every successful transition into a terminal status
stamps `finishedAt` and clears `pid` and `assignedGpu`; consequently,
along any sequence of transition requests with nondecreasing times
starting from a job that is not yet started and not terminal, a terminal
outcome has `pid = none` and, when the job was started, a `finishedAt`
no earlier than its `startedAt`. -/
theorem c7_running_and_terminal_stamps :
    (∀ (j : Job) (t : Rat) (j' : Job),
      transition j .running t = .ok j' → j'.startedAt = some t) ∧
    (∀ (j : Job) (ns : JobStatus) (t : Rat) (j' : Job),
      ns.isTerminal = true → transition j ns t = .ok j' →
      j'.finishedAt = some t ∧ j'.pid = none ∧ j'.assignedGpu = none) ∧
    (∀ (j : Job) (l : List (JobStatus × Rat)),
      j.startedAt = none → j.status.isTerminal = false →
      List.Pairwise (fun a b => a.2 ≤ b.2) l →
      ((applyTransitions j l).status.isTerminal = true →
        (applyTransitions j l).pid = none ∧
        ∀ s, (applyTransitions j l).startedAt = some s →
          ∃ f, (applyTransitions j l).finishedAt = some f ∧ s ≤ f)) := by
  refine ⟨?_, ?_, ?_⟩
  · intro j t j' h
    exact (transition_ok_fields h).2.1 rfl
  · intro j ns t j' hterm h
    exact (transition_ok_fields h).2.2.2.1 hterm
  · intro j l hstart hterm hsort
    refine applyTransitions_terminal_inv l j hsort ?_ ?_
    · intro s hs
      rw [hstart] at hs
      cases hs
    · intro h
      rw [h] at hterm
      cases hterm

/-- Witness for C7: the fresh job started at time 1 and finished at time
2 ends with `pid = none`, `startedAt = 1` and a `finishedAt ≥ 1`. -/
theorem c7_running_and_terminal_stamps_witness :
    (applyTransitions jobFresh [(.running, 1), (.finished, 2)]).pid = none ∧
    (applyTransitions jobFresh [(.running, 1), (.finished, 2)]).startedAt
      = some 1 ∧
    ∃ f, (applyTransitions jobFresh [(.running, 1), (.finished, 2)]).finishedAt
      = some f ∧ (1 : Rat) ≤ f := by
  have h := c7_running_and_terminal_stamps.2.2 jobFresh
    [(.running, 1), (.finished, 2)] rfl rfl
    (by norm_num [List.pairwise_cons]) (by rfl)
  exact ⟨h.1, by rfl, h.2 1 (by rfl)⟩

/-- Reduction of `Option.elim` on a present value. -/
theorem optionElim_some {α β : Type} (x : α) (b : β) (f : α → β) :
    (some x).elim b f = f x := rfl

/-- At a nonnegative wall-clock time, the falsy cooldown check of the
source agrees with the spec's `now < cooldownUntil[g]` (missing entry
read as 0). -/
theorem isCoolingDown_iff (st : PolicyState) (g : Nat) (now : Rat)
    (h0 : 0 ≤ now) :
    isCoolingDown st g now = true ↔
      now < (assocLookup st.cooldownUntil g).getD 0 := by
  simp only [isCoolingDown]
  by_cases hu : (assocLookup st.cooldownUntil g).getD 0 = 0
  · rw [if_pos hu, hu]
    simp only [Bool.false_eq_true, false_iff, not_lt]
    exact h0
  · rw [if_neg hu]
    simp

/-- The guarded negative-index spike check of the source agrees with the
spec's "length ≥ 2 and the last two samples differ by more than
`spikeDelta`". -/
theorem detectSpike_iff (cfg : PolicyConfig) (st : PolicyState) (g : Nat) :
    detectSpike cfg st g = true ↔
      (2 ≤ ((assocLookup st.utilHistory g).getD []).length ∧
        cfg.spikeDelta <
          |((assocLookup st.utilHistory g).getD []).getLast?.getD 0 -
            ((assocLookup st.utilHistory g).getD
              []).dropLast.getLast?.getD 0|) := by
  simp only [detectSpike]
  by_cases hl : ((assocLookup st.utilHistory g).getD []).length < 2
  · rw [if_pos hl]
    simp only [Bool.false_eq_true, false_iff]
    exact fun hh => absurd hh.1 (by omega)
  · rw [if_neg hl]
    rw [Nat.not_lt] at hl
    simp [hl]

/-- C8: `canScheduleOnGpu` implements exactly the six-step admission rule
of the specification (`canScheduleOnGpuSpec`), for every configuration
with a positive history window and every nonnegative wall-clock time:
same decision and same resulting policy state. -/
theorem c8_canScheduleOnGpu_matches_spec (cfg : PolicyConfig)
    (st : PolicyState) (g : Nat) (now u : Rat) (mem : Option Rat)
    (h0 : 0 ≤ now) (hw : 1 ≤ cfg.historyWindow) :
    canScheduleOnGpu cfg st g now u mem =
      canScheduleOnGpuSpec cfg st g now u mem := by
  simp only [canScheduleOnGpu, canScheduleOnGpuSpec, updateMetrics]
  set A : List Rat := (assocLookup st.utilHistory g).getD [] ++ [u] with hA
  set H : List Rat := if cfg.historyWindow < A.length then A.tail else A
    with hH
  set S1 : PolicyState :=
    { st with utilHistory := assocInsert st.utilHistory g H } with hS1
  have hne : H ≠ [] := by
    rw [hH]
    by_cases hlen : cfg.historyWindow < A.length
    · rw [if_pos hlen]
      intro hnil
      have hlt := congrArg List.length hnil
      rw [List.length_tail] at hlt
      have hA1 : 1 ≤ A.length := by
        rw [hA]
        simp
      simp only [List.length_nil] at hlt
      omega
    · rw [if_neg hlen]
      rw [hA]
      simp
  have hlook : (assocLookup S1.utilHistory g).getD [] = H := by
    rw [hS1]
    show (assocLookup (assocInsert st.utilHistory g H) g).getD [] = H
    rw [assocLookup_assocInsert]
    simp
  have havg : movingAverage S1 g = some (H.sum / H.length) := by
    simp only [movingAverage, hlook]
    rw [if_neg hne]
  have hsp := detectSpike_iff cfg S1 g
  rw [hlook] at hsp
  have hcool := isCoolingDown_iff S1 g now h0
  by_cases h1 : now < (assocLookup S1.cooldownUntil g).getD 0
  · have hc : isCoolingDown S1 g now = true := hcool.mpr h1
    simp [hc, h1]
  · have hc : ¬ isCoolingDown S1 g now = true := fun hh => h1 (hcool.mp hh)
    by_cases h2 : 2 ≤ H.length ∧ cfg.spikeDelta <
        |H.getLast?.getD 0 - H.dropLast.getLast?.getD 0|
    · have hd : detectSpike cfg S1 g = true := hsp.mpr h2
      simp [hc, h1, hd, h2, triggerCooldown]
    · have hd : ¬ detectSpike cfg S1 g = true := fun hh => h2 (hsp.mp hh)
      by_cases hm :
          (mem.elim true (fun m => decide (m < cfg.staticMemThreshold)))
            = true
      · by_cases ha : H.sum / H.length < cfg.staticUtilThreshold <;>
          by_cases hu' : u < cfg.staticUtilThreshold <;>
          simp [hc, h1, hd, h2, hm, ha, hu', havg, optionElim_some]
      · simp [hc, h1, hd, h2, hm, havg, optionElim_some]

/-- Witness for C8: the agreement instantiated with the default
configuration, the empty policy state, device 0 at time 0, utilization 20
and no memory reading. -/
theorem c8_canScheduleOnGpu_matches_spec_witness :
    canScheduleOnGpu {} policyEmpty 0 0 20 none =
      canScheduleOnGpuSpec {} policyEmpty 0 0 20 none :=
  c8_canScheduleOnGpu_matches_spec {} policyEmpty 0 0 20 none
    (by norm_num) (by norm_num)

end GPUScheduler
